import Mathlib

/-!
Shallow embedding of the Proyecto-Empresa transaction pipeline.

Sources embedded here:
- src/src/data_generator.py  (TransactionDataGenerator)
- src/src/model_trainer.py   (AnomalyDetector)
- src/src/data_processor.py  (DataProcessor.encode_features)

Modelling conventions:
- Python floats are modelled as rationals.
- The seeded pseudo-random stream consumed by the generator is made explicit:
  every call the Python code makes to the random module is represented by one
  field of a per-row draw record.  A choice from a list is an arbitrary index
  reduced modulo the list length, randint is an offset modulo the width of the
  interval, and uniform(a, b) is a + u * (b - a) for a parameter u in [0, 1];
  random.random() is a parameter in [0, 1).  Every run of the Python code
  corresponds to one assignment of these parameters, and conversely.
- Python round(x, 2) is modelled by rounding 100 * x to the nearest integer;
  all proofs below use only monotonicity of the rounding and its exactness on
  multiples of 1/100, which hold for the Python rounding as well.
- pandas sample(frac=1, random_state=seed) is a permutation of the rows that
  depends only on the seed; it is modelled by a seeded Fisher-Yates shuffle
  driven by a linear congruential generator, which has both properties.
- datetime.now() is passed in explicitly as the argument now, a timestamp in
  minutes; timedelta arithmetic becomes integer arithmetic on minutes.
-/

/- The Batteries rational-number operations are irreducible by default, which
prevents kernel evaluation of concrete dataset runs; restore the ordinary
reducibility so that concrete runs can be settled by decide. -/
set_option allowUnsafeReducibility true
attribute [semireducible] Rat.mul Rat.add Rat.sub Rat.inv Rat.ofScientific

/-! ### Constants of TransactionDataGenerator (data_generator.py lines 12-81) -/

def CURRENCIES : List String := ["EUR", "USD", "GBP", "CHF"]

def CHANNELS : List String := ["web", "app", "cajero", "sucursal"]

def DEVICES : List String := ["desktop", "mobile", "tablet", "atm", "pos"]

def UNUSUAL_COUNTRIES : List String := ["RU", "CN", "KP", "IR", "SY", "AF", "YE", "NG", "PK"]

def LOW_RANGE_PROBABILITY : ℚ := 70 / 100

def MEDIUM_RANGE_PROBABILITY : ℚ := 95 / 100

def LOW_RANGE_MULTIPLIER : ℚ := 3 / 10

def MEDIUM_RANGE_MIN_MULTIPLIER : ℚ := 3 / 10

def MEDIUM_RANGE_MAX_MULTIPLIER : ℚ := 8 / 10

def HIGH_RANGE_MIN_MULTIPLIER : ℚ := 8 / 10

def MAX_TRANSACTION_AMOUNT : ℚ := 100000

def MIN_CUSTOMERS : ℕ := 100

def TRANSACTIONS_PER_CUSTOMER : ℕ := 50

def anomaly_customers_ratio : ℕ := 10

def LOW_SPENDER_THRESHOLD : ℚ := 5000

def HIGH_AMOUNT_MIN : ℚ := 10000

def UNUSUAL_HOURS : List ℕ := [0, 1, 2, 3, 4, 5, 23]

def DAYS_LOOKBACK : ℕ := 365

def ANOMALY_TYPES : List String :=
  ["high_amount_unusual_user", "unusual_time", "unusual_country", "combined_anomaly"]

/-- One entry of the CUSTOMER_PROFILES table (data_generator.py lines 44-65). -/
structure ProfileConfig where
  typicalMin : ℚ
  typicalMax : ℚ
  hourMin : ℕ
  hourMax : ℕ
  typicalCountries : List String
deriving DecidableEq

def CUSTOMER_PROFILES : List (String × ProfileConfig) :=
  [("low_spender", ⟨10, 500, 9, 21, ["ES", "FR", "IT"]⟩),
   ("medium_spender", ⟨100, 3000, 8, 22, ["ES", "FR", "DE", "IT", "GB"]⟩),
   ("high_spender", ⟨1000, 15000, 8, 23, ["ES", "FR", "DE", "IT", "GB", "US"]⟩),
   ("business", ⟨500, 25000, 7, 19, ["ES", "FR", "DE", "US", "GB", "CH"]⟩)]

/-! ### Data model -/

/-- A customer profile as built by _create_customer_profile
(data_generator.py lines 103-122). -/
structure Profile where
  ptype : String
  typicalMin : ℚ
  typicalMax : ℚ
  hourMin : ℕ
  hourMax : ℕ
  typicalCountries : List String
  homeCountry : String
  transactionCount : ℕ
deriving DecidableEq

/-- One generated transaction row.  The timestamp is in minutes; the drawn
day offset, hour and minute components are also kept as separate fields
(they are determined by the timestamp arithmetic of the source). -/
structure Transaction where
  transactionId : Option String
  customerId : String
  timestamp : ℤ
  day : ℕ
  hour : ℕ
  minute : ℕ
  amount : ℚ
  currency : String
  originCountry : String
  destinationCountry : String
  channel : String
  deviceType : String
  isAnomaly : ℕ
deriving DecidableEq

def dTxn : Transaction :=
  ⟨none, "", 0, 0, 0, 0, 0, "", "", "", "", "", 0⟩

/-! ### Explicit random draws -/

/-- The random draws consumed by one iteration of the loop in
_generate_normal_transactions (data_generator.py lines 161-224). -/
structure NormalDraws where
  customerIdx : ℕ
  profileTypeIdx : ℕ
  homeCountryIdx : ℕ
  randVal : ℚ
  amountU : ℚ
  hourIdx : ℕ
  dayIdx : ℕ
  minuteIdx : ℕ
  destCountryIdx : ℕ
  currencyIdx : ℕ
  channelIdx : ℕ
  deviceIdx : ℕ
deriving DecidableEq

/-- The random draws consumed by one iteration of the loop in
_generate_anomaly_transactions (data_generator.py lines 242-303). -/
structure AnomalyDraws where
  customerIdx : ℕ
  profileTypeIdx : ℕ
  homeCountryIdx : ℕ
  anomalyTypeIdx : ℕ
  destCountryIdx : ℕ
  defaultHourIdx : ℕ
  amountU : ℚ
  unusualHourIdx : ℕ
  unusualCountryIdx : ℕ
  dayIdx : ℕ
  minuteIdx : ℕ
  currencyIdx : ℕ
  channelIdx : ℕ
  deviceIdx : ℕ
deriving DecidableEq

/-- random.choice over a list: an arbitrary index reduced modulo the length. -/
def listChoice {α : Type} (l : List α) (d : α) (i : ℕ) : α :=
  l.getD (i % l.length) d

/-- random.randint(a, b), both ends inclusive. -/
def randIntN (a b i : ℕ) : ℕ :=
  a + i % (b - a + 1)

/-- random.uniform(a, b) with the draw u in [0, 1]. -/
def uniformQ (a b u : ℚ) : ℚ :=
  a + u * (b - a)

/-- Python round(x, 2): round to the nearest multiple of 1/100. -/
def round2 (x : ℚ) : ℚ :=
  ((round (100 * x) : ℤ) : ℚ) / 100

/-- Zero-padding of str(i).zfill(w). -/
def zfill (w : ℕ) (n : ℕ) : String :=
  let s := toString n
  String.mk (List.replicate (w - s.length) '0') ++ s

/-! ### Customer profile store -/

/-- self.customer_profiles, a dictionary from customer id to profile. -/
abbrev ProfileStore : Type := List (String × Profile)

def storeFind : ProfileStore → String → Option Profile
  | [], _ => none
  | (k, p) :: st, cid => if k = cid then some p else storeFind st cid

/-- _create_customer_profile (data_generator.py lines 103-122): choose one of
the four predefined profile configurations, then a home country among its
typical countries; the transaction counter starts at zero. -/
def create_customer_profile (profileTypeIdx homeCountryIdx : ℕ) : Profile :=
  let c := listChoice CUSTOMER_PROFILES ("low_spender", ⟨10, 500, 9, 21, ["ES", "FR", "IT"]⟩)
    profileTypeIdx
  { ptype := c.1
    typicalMin := c.2.typicalMin
    typicalMax := c.2.typicalMax
    hourMin := c.2.hourMin
    hourMax := c.2.hourMax
    typicalCountries := c.2.typicalCountries
    homeCountry := listChoice c.2.typicalCountries "ES" homeCountryIdx
    transactionCount := 0 }

/-- _get_customer_profile (data_generator.py lines 124-128): get-or-create. -/
def get_customer_profile (st : ProfileStore) (cid : String)
    (profileTypeIdx homeCountryIdx : ℕ) : Profile × ProfileStore :=
  match storeFind st cid with
  | some p => (p, st)
  | none =>
      let p := create_customer_profile profileTypeIdx homeCountryIdx
      (p, (cid, p) :: st)

/-- profile['transaction_count'] += 1 (data_generator.py line 164). -/
def bumpCount (st : ProfileStore) (cid : String) : ProfileStore :=
  st.map fun e => if e.1 = cid then (e.1, { e.2 with transactionCount := e.2.transactionCount + 1 }) else e

/-- CUST ids, f-string CUST + str(i).zfill(6). -/
def customer_id_list (k : ℕ) : List String :=
  (List.range k).map fun i => "CUST" ++ zfill 6 i

/-! ### Row generators -/

/-- The amount computation of one normal row
(data_generator.py lines 166-192), including the final clamp. -/
def normal_raw (p : Profile) (randVal amountU : ℚ) : ℚ :=
  if randVal < LOW_RANGE_PROBABILITY then
    round2 (uniformQ p.typicalMin
      (p.typicalMin + (p.typicalMax - p.typicalMin) * LOW_RANGE_MULTIPLIER) amountU)
  else if randVal < MEDIUM_RANGE_PROBABILITY then
    round2 (uniformQ (p.typicalMin + (p.typicalMax - p.typicalMin) * MEDIUM_RANGE_MIN_MULTIPLIER)
      (p.typicalMin + (p.typicalMax - p.typicalMin) * MEDIUM_RANGE_MAX_MULTIPLIER) amountU)
  else
    round2 (uniformQ (p.typicalMin + (p.typicalMax - p.typicalMin) * HIGH_RANGE_MIN_MULTIPLIER)
      p.typicalMax amountU)

def normal_amount (p : Profile) (randVal amountU : ℚ) : ℚ :=
  min (normal_raw p randVal amountU) MAX_TRANSACTION_AMOUNT

/-- One iteration of the loop in _generate_normal_transactions
(data_generator.py lines 161-224). -/
def gen_normal_txn (ids : List String) (now : ℤ) (st : ProfileStore)
    (d : NormalDraws) : Transaction × ProfileStore :=
  let cid := listChoice ids "CUST000000" d.customerIdx
  let pr := get_customer_profile st cid d.profileTypeIdx d.homeCountryIdx
  let p := pr.1
  let st1 := bumpCount pr.2 cid
  let amount := normal_amount p d.randVal d.amountU
  let hour := randIntN p.hourMin p.hourMax d.hourIdx
  let day := randIntN 0 DAYS_LOOKBACK d.dayIdx
  let minute := randIntN 0 59 d.minuteIdx
  let timestamp := now - (DAYS_LOOKBACK : ℤ) * 1440 + (day : ℤ) * 1440 + (hour : ℤ) * 60 + (minute : ℤ)
  let origin := p.homeCountry
  let dest := listChoice p.typicalCountries "ES" d.destCountryIdx
  let currency := if origin ∈ ["ES", "FR", "DE", "IT"] then "EUR"
    else listChoice CURRENCIES "EUR" d.currencyIdx
  let channel := listChoice CHANNELS "web" d.channelIdx
  let device := listChoice DEVICES "desktop" d.deviceIdx
  (⟨none, cid, timestamp, day, hour, minute, amount, currency, origin, dest, channel, device, 0⟩, st1)

/-- The amount branch of the anomaly rules (data_generator.py lines 256-279). -/
def anomaly_amount (p : Profile) (anomaly_type : String) (u : ℚ) : ℚ :=
  if anomaly_type = "high_amount_unusual_user" then
    if p.typicalMax < LOW_SPENDER_THRESHOLD then
      round2 (uniformQ HIGH_AMOUNT_MIN MAX_TRANSACTION_AMOUNT u)
    else
      round2 (uniformQ (p.typicalMax * 2) MAX_TRANSACTION_AMOUNT u)
  else if anomaly_type = "unusual_time" then
    round2 (uniformQ (p.typicalMax * (5 / 10)) (p.typicalMax * 3) u)
  else if anomaly_type = "unusual_country" then
    round2 (uniformQ (p.typicalMax * (3 / 10)) (p.typicalMax * 2) u)
  else
    round2 (uniformQ 15000 MAX_TRANSACTION_AMOUNT u)

/-- The hour branch of the anomaly rules (data_generator.py lines 254-279):
the default in-profile hour is overridden only for unusual_time and
combined_anomaly. -/
def anomaly_hour (p : Profile) (anomaly_type : String)
    (defaultHourIdx unusualHourIdx : ℕ) : ℕ :=
  if anomaly_type = "high_amount_unusual_user" then randIntN p.hourMin p.hourMax defaultHourIdx
  else if anomaly_type = "unusual_time" then listChoice UNUSUAL_HOURS 0 unusualHourIdx
  else if anomaly_type = "unusual_country" then randIntN p.hourMin p.hourMax defaultHourIdx
  else listChoice UNUSUAL_HOURS 0 unusualHourIdx

/-- The destination-country branch of the anomaly rules
(data_generator.py lines 253-279): the default typical country is overridden
only for unusual_country and combined_anomaly. -/
def anomaly_dest (p : Profile) (anomaly_type : String)
    (destCountryIdx unusualCountryIdx : ℕ) : String :=
  if anomaly_type = "high_amount_unusual_user" then listChoice p.typicalCountries "ES" destCountryIdx
  else if anomaly_type = "unusual_time" then listChoice p.typicalCountries "ES" destCountryIdx
  else if anomaly_type = "unusual_country" then listChoice UNUSUAL_COUNTRIES "RU" unusualCountryIdx
  else listChoice UNUSUAL_COUNTRIES "RU" unusualCountryIdx

/-- One iteration of the loop in _generate_anomaly_transactions
(data_generator.py lines 242-303).  The profile is read but never written. -/
def gen_anomaly_txn (ids : List String) (now : ℤ) (st : ProfileStore)
    (d : AnomalyDraws) : Transaction × ProfileStore :=
  let cid := listChoice ids "CUST000000" d.customerIdx
  let pr := get_customer_profile st cid d.profileTypeIdx d.homeCountryIdx
  let p := pr.1
  let anomaly_type := listChoice ANOMALY_TYPES "high_amount_unusual_user" d.anomalyTypeIdx
  let amount := anomaly_amount p anomaly_type d.amountU
  let hour := anomaly_hour p anomaly_type d.defaultHourIdx d.unusualHourIdx
  let dest := anomaly_dest p anomaly_type d.destCountryIdx d.unusualCountryIdx
  let day := randIntN 0 DAYS_LOOKBACK d.dayIdx
  let minute := randIntN 0 59 d.minuteIdx
  let timestamp := now - (DAYS_LOOKBACK : ℤ) * 1440 + (day : ℤ) * 1440 + (hour : ℤ) * 60 + (minute : ℤ)
  let origin := p.homeCountry
  let currency := if origin ∈ ["ES", "FR", "DE", "IT"] then "EUR"
    else listChoice CURRENCIES "EUR" d.currencyIdx
  let channel := listChoice CHANNELS "web" d.channelIdx
  let device := listChoice DEVICES "desktop" d.deviceIdx
  (⟨none, cid, timestamp, day, hour, minute, amount, currency, origin, dest, channel, device, 1⟩, pr.2)

/-! ### Generation loops and dataset assembly -/

/-- The for-loop shape shared by both generation functions: run the step n
times starting at row index i, threading the profile store and collecting
the produced rows in order. -/
def genRowsAux (step : ProfileStore → ℕ → Transaction × ProfileStore) :
    ℕ → ℕ → ProfileStore → List Transaction × ProfileStore
  | _, 0, st => ([], st)
  | i, n + 1, st =>
      let r := step st i
      let rest := genRowsAux step (i + 1) n r.2
      (r.1 :: rest.1, rest.2)

/-- Python int(), truncation toward zero. -/
def truncQ (q : ℚ) : ℤ :=
  if 0 ≤ q then ⌊q⌋ else ⌈q⌉

/-- _generate_normal_transactions (data_generator.py lines 153-226).  The
count n is an integer because generate_dataset can pass a negative value;
range over a negative count runs zero times. -/
def generate_normal_transactions (n : ℤ) (now : ℤ) (nd : ℕ → NormalDraws)
    (st : ProfileStore) : List Transaction × ProfileStore :=
  let n_customers := max MIN_CUSTOMERS (Int.fdiv n (TRANSACTIONS_PER_CUSTOMER : ℤ)).toNat
  let ids := customer_id_list n_customers
  genRowsAux (fun st i => gen_normal_txn ids now st (nd i)) 0 n.toNat st

/-- _generate_anomaly_transactions (data_generator.py lines 228-305). -/
def generate_anomaly_transactions (n : ℤ) (now : ℤ) (ad : ℕ → AnomalyDraws)
    (st : ProfileStore) : List Transaction × ProfileStore :=
  let n_customers := max (MIN_CUSTOMERS / 2) (Int.fdiv n (anomaly_customers_ratio : ℤ)).toNat
  let ids := customer_id_list n_customers
  genRowsAux (fun st i => gen_anomaly_txn ids now st (ad i)) 0 n.toNat st

/-- A linear congruential generator driving the modelled shuffle. -/
def lcg (s : ℕ) : ℕ :=
  (1103515245 * s + 12345) % 2147483648

/-- Fisher-Yates draft of the seeded permutation performed by
sample(frac=1, random_state=seed): repeatedly pick a position from the
pseudo-random stream and move that element to the front of the output. -/
def shuffleAux {α : Type} (s : ℕ) : ℕ → List α → List α
  | 0, _ => []
  | _ + 1, [] => []
  | fuel + 1, a :: l =>
      let i := s % (a :: l).length
      (a :: l).getD i a :: shuffleAux (lcg s) fuel ((a :: l).eraseIdx i)

/-- The deterministic full shuffle keyed by the seed
(data_generator.py line 145). -/
def seededShuffle {α : Type} (seed : ℕ) (l : List α) : List α :=
  shuffleAux (lcg seed) l.length l

/-- transaction_id assignment over the shuffled order
(data_generator.py line 148). -/
def assignIdsAux : ℕ → List Transaction → List Transaction
  | _, [] => []
  | i, t :: ts => { t with transactionId := some ("TXN" ++ zfill 8 i) } :: assignIdsAux (i + 1) ts

def assignIds (l : List Transaction) : List Transaction :=
  assignIdsAux 0 l

/-- generate_dataset (data_generator.py lines 130-151): split the requested
row count by int(n * ratio), generate both groups sharing one profile store,
concatenate, shuffle by seed, and assign sequential ids.  The source performs
no validation of anomaly_ratio. -/
def generate_dataset (n_transactions : ℕ) (anomaly_ratio : ℚ) (seed : ℕ)
    (now : ℤ) (nd : ℕ → NormalDraws) (ad : ℕ → AnomalyDraws) : List Transaction :=
  let n_anomalies : ℤ := truncQ ((n_transactions : ℚ) * anomaly_ratio)
  let n_normal : ℤ := (n_transactions : ℤ) - n_anomalies
  let nr := generate_normal_transactions n_normal now nd []
  let ar := generate_anomaly_transactions n_anomalies now ad nr.2
  let all_transactions := nr.1 ++ ar.1
  assignIds (seededShuffle seed all_transactions)

/-! ### AnomalyDetector (model_trainer.py) -/

/-- AnomalyDetector state (model_trainer.py lines 8-18); the fitted sklearn
estimator is abstracted to the name of the model variant that was fitted. -/
structure AnomalyDetector where
  model_type : String
  contamination : ℚ
  random_state : ℕ
  model : Option String
deriving DecidableEq

def AnomalyDetector.train (d : AnomalyDetector) : Except String AnomalyDetector :=
  if d.model_type = "isolation_forest" then
    Except.ok { d with model := some "isolation_forest" }
  else if d.model_type = "lof" then
    Except.ok { d with model := some "lof" }
  else
    Except.error ("Modelo no soportado: " ++ d.model_type)

/-- score_samples (model_trainer.py lines 54-64).  The scores produced by the
fitted library model are an input parameter modelScores; for any other
model_type the source substitutes np.zeros(len(X)).  The result is negated. -/
def AnomalyDetector.score_samples (d : AnomalyDetector) (modelScores : List ℚ)
    (X : List (List ℚ)) : List ℚ :=
  let scores :=
    if d.model_type = "isolation_forest" then modelScores
    else if d.model_type = "lof" then modelScores
    else List.replicate X.length 0
  scores.map fun s => -s

/-! ### DataProcessor.encode_features (data_processor.py lines 72-85) -/

def categorical_cols : List String :=
  ["currency", "origin_country", "destination_country", "channel", "device_type"]

/-- Sorted insertion without duplicates. -/
def insertUniqueSorted (v : String) : List String → List String
  | [] => [v]
  | a :: l => if v = a then a :: l else if v ≤ a then v :: a :: l else a :: insertUniqueSorted v l

/-- sklearn LabelEncoder.fit: the classes are the sorted distinct values. -/
def fitClasses (vals : List String) : List String :=
  vals.foldr insertUniqueSorted []

/-- sklearn LabelEncoder.transform: map each value to its class index,
raising on a value outside the fitted classes. -/
def leTransform (classes : List String) : List String → Except String (List ℕ)
  | [] => Except.ok []
  | v :: vs =>
      if v ∈ classes then
        match leTransform classes vs with
        | Except.ok codes => Except.ok (classes.indexOf v :: codes)
        | Except.error e => Except.error e
      else
        Except.error ("y contains previously unseen labels: " ++ v)

/-- The loop body of encode_features: for each categorical column either fit
a new encoder on the column values (first call) or reuse the stored encoder,
which raises on unseen values.  Returns the updated encoder table and the
encoded columns. -/
def encodeCols (df : String → List String) :
    List (String × List String) → List String →
    Except String (List (String × List String) × List (String × List ℕ))
  | encs, [] => Except.ok (encs, [])
  | encs, col :: rest =>
      match (encs.lookup col : Option (List String)) with
      | none =>
          let cls := fitClasses (df col)
          let codes := (df col).map fun v => cls.indexOf v
          match encodeCols df ((col, cls) :: encs) rest with
          | Except.ok (encs1, out) => Except.ok (encs1, (col ++ "_encoded", codes) :: out)
          | Except.error e => Except.error e
      | some cls =>
          match leTransform cls (df col) with
          | Except.error e => Except.error e
          | Except.ok codes =>
              match encodeCols df encs rest with
              | Except.ok (encs1, out) => Except.ok (encs1, (col ++ "_encoded", codes) :: out)
              | Except.error e => Except.error e

/-- DataProcessor state: the label_encoders dictionary. -/
structure DataProcessor where
  label_encoders : List (String × List String)
deriving DecidableEq

/-- encode_features (data_processor.py lines 72-85). -/
def DataProcessor.encode_features (proc : DataProcessor) (df : String → List String) :
    Except String (DataProcessor × List (String × List ℕ)) :=
  match encodeCols df proc.label_encoders categorical_cols with
  | Except.ok (encs, out) => Except.ok (⟨encs⟩, out)
  | Except.error e => Except.error e

/-! ### Basic helper lemmas -/

theorem listChoice_mem {α : Type} (l : List α) (d : α) (i : ℕ) (h : l ≠ []) :
    listChoice l d i ∈ l := by
  have hlen : 0 < l.length := List.length_pos.mpr h
  have hi : i % l.length < l.length := Nat.mod_lt _ hlen
  rw [listChoice, List.getD_eq_getElem l d hi]
  exact List.getElem_mem hi

theorem randIntN_bounds (a b i : ℕ) (hab : a ≤ b) :
    a ≤ randIntN a b i ∧ randIntN a b i ≤ b := by
  have h : i % (b - a + 1) < b - a + 1 := Nat.mod_lt _ (Nat.succ_pos _)
  simp only [randIntN]
  omega

theorem uniformQ_bounds (a b u : ℚ) (hab : a ≤ b) (h0 : 0 ≤ u) (h1 : u ≤ 1) :
    a ≤ uniformQ a b u ∧ uniformQ a b u ≤ b := by
  constructor
  · have := mul_nonneg h0 (sub_nonneg.mpr hab)
    simp only [uniformQ]; linarith
  · have := mul_le_mul_of_nonneg_right h1 (sub_nonneg.mpr hab)
    simp only [uniformQ]; linarith

theorem round_mono' {u v : ℚ} (h : u ≤ v) : round u ≤ round v := by
  rw [round_eq, round_eq]; exact Int.floor_mono (by linarith)

theorem round2_bounds (a b x : ℚ) (ma mb : ℤ) (ha : (ma : ℚ) = 100 * a)
    (hb : (mb : ℚ) = 100 * b) (h1 : a ≤ x) (h2 : x ≤ b) :
    a ≤ round2 x ∧ round2 x ≤ b := by
  have hma : round ((ma : ℚ)) = ma := round_intCast ma
  have hmb : round ((mb : ℚ)) = mb := round_intCast mb
  have l1 : round ((ma : ℚ)) ≤ round (100 * x) := round_mono' (by rw [ha]; linarith)
  have l2 : round (100 * x) ≤ round ((mb : ℚ)) := round_mono' (by rw [hb]; linarith)
  rw [hma] at l1
  rw [hmb] at l2
  have c1 : (ma : ℚ) ≤ ((round (100 * x) : ℤ) : ℚ) := by exact_mod_cast l1
  have c2 : ((round (100 * x) : ℤ) : ℚ) ≤ (mb : ℚ) := by exact_mod_cast l2
  rw [ha] at c1
  rw [hb] at c2
  constructor
  · rw [round2]; linarith
  · rw [round2]; linarith

theorem round2_uniform_between (a b lo hi u : ℚ) (ma mb : ℤ)
    (ha : (ma : ℚ) = 100 * a) (hb : (mb : ℚ) = 100 * b) (hab : a ≤ b)
    (h0 : 0 ≤ u) (h1 : u ≤ 1) (hlo : lo ≤ a) (hhi : b ≤ hi) :
    lo ≤ round2 (uniformQ a b u) ∧ round2 (uniformQ a b u) ≤ hi := by
  obtain ⟨m1, m2⟩ := uniformQ_bounds a b u hab h0 h1
  obtain ⟨r1, r2⟩ := round2_bounds a b (uniformQ a b u) ma mb ha hb m1 m2
  exact ⟨le_trans hlo r1, le_trans r2 hhi⟩

/-! ### Profile well-formedness -/

/-- A profile carries the data of one of the four predefined configurations,
with a home country drawn from its typical countries. -/
def ProfileWF (p : Profile) : Prop :=
  ∃ c ∈ CUSTOMER_PROFILES, p.typicalMin = c.2.typicalMin ∧ p.typicalMax = c.2.typicalMax ∧
    p.hourMin = c.2.hourMin ∧ p.hourMax = c.2.hourMax ∧
    p.typicalCountries = c.2.typicalCountries ∧ p.homeCountry ∈ c.2.typicalCountries

def StoreWF (st : ProfileStore) : Prop :=
  ∀ e ∈ st, ProfileWF e.2

theorem create_customer_profile_wf (i j : ℕ) : ProfileWF (create_customer_profile i j) := by
  have hne : CUSTOMER_PROFILES ≠ [] := by simp [CUSTOMER_PROFILES]
  have hc : listChoice CUSTOMER_PROFILES
      ("low_spender", ⟨10, 500, 9, 21, ["ES", "FR", "IT"]⟩) i ∈ CUSTOMER_PROFILES :=
    listChoice_mem _ _ _ hne
  have hcc : ∀ c ∈ CUSTOMER_PROFILES, c.2.typicalCountries ≠ [] := by decide
  exact ⟨_, hc, rfl, rfl, rfl, rfl, rfl, listChoice_mem _ _ _ (hcc _ hc)⟩

theorem storeFind_mem : ∀ (st : ProfileStore) (cid : String) (p : Profile),
    storeFind st cid = some p → ∃ k, (k, p) ∈ st := by
  intro st
  induction st with
  | nil => intro cid p h; simp [storeFind] at h
  | cons e st ih =>
      intro cid p h
      obtain ⟨k, q⟩ := e
      rw [storeFind] at h
      by_cases hk : k = cid
      · rw [if_pos hk] at h
        exact ⟨k, by simp [Option.some_inj.mp h]⟩
      · rw [if_neg hk] at h
        obtain ⟨k1, hmem⟩ := ih cid p h
        exact ⟨k1, List.mem_cons_of_mem _ hmem⟩

theorem get_customer_profile_wf (st : ProfileStore) (cid : String) (i j : ℕ)
    (h : StoreWF st) :
    ProfileWF (get_customer_profile st cid i j).1 ∧ StoreWF (get_customer_profile st cid i j).2 := by
  rw [get_customer_profile]
  cases hf : storeFind st cid with
  | some p =>
      obtain ⟨k, hmem⟩ := storeFind_mem st cid p hf
      exact ⟨h _ hmem, h⟩
  | none =>
      refine ⟨create_customer_profile_wf i j, ?_⟩
      intro e he
      rcases List.mem_cons.mp he with rfl | he2
      · exact create_customer_profile_wf i j
      · exact h _ he2

theorem profileWF_count (p : Profile) (k : ℕ) :
    ProfileWF { p with transactionCount := k } ↔ ProfileWF p := by
  simp [ProfileWF]

theorem bumpCount_wf (st : ProfileStore) (cid : String) (h : StoreWF st) :
    StoreWF (bumpCount st cid) := by
  intro e he
  rw [bumpCount] at he
  obtain ⟨e1, he1, heq⟩ := List.mem_map.mp he
  by_cases hc : e1.1 = cid
  · rw [if_pos hc] at heq
    rw [← heq]
    exact (profileWF_count _ _).mpr (h _ he1)
  · rw [if_neg hc] at heq
    rw [← heq]
    exact h _ he1

/-- The numeric content of the four profile configurations: both monetary
bounds are multiples of 10, ordered, and capped. -/
theorem profileWF_numeric (p : Profile) (hp : ProfileWF p) :
    ∃ a b : ℤ, p.typicalMin = 10 * (a : ℚ) ∧ p.typicalMax = 10 * (b : ℚ) ∧
      1 ≤ a ∧ a ≤ b ∧ b ≤ 2500 := by
  obtain ⟨c, hc, h1, h2, _, _, _, _⟩ := hp
  simp only [CUSTOMER_PROFILES, List.mem_cons, List.not_mem_nil, or_false] at hc
  rcases hc with rfl | rfl | rfl | rfl
  · exact ⟨1, 50, by rw [h1]; norm_num, by rw [h2]; norm_num, by norm_num, by norm_num, by norm_num⟩
  · exact ⟨10, 300, by rw [h1]; norm_num, by rw [h2]; norm_num, by norm_num, by norm_num, by norm_num⟩
  · exact ⟨100, 1500, by rw [h1]; norm_num, by rw [h2]; norm_num, by norm_num, by norm_num, by norm_num⟩
  · exact ⟨50, 2500, by rw [h1]; norm_num, by rw [h2]; norm_num, by norm_num, by norm_num, by norm_num⟩

/-! ### Amount bounds -/

theorem normal_raw_in_range (p : Profile) (hp : ProfileWF p) (r u : ℚ)
    (h0 : 0 ≤ u) (h1 : u ≤ 1) :
    p.typicalMin ≤ normal_raw p r u ∧ normal_raw p r u ≤ p.typicalMax := by
  obtain ⟨a, b, hmin, hmax, ha1, hab, hb1⟩ := profileWF_numeric p hp
  have ha1Q : (1 : ℚ) ≤ (a : ℚ) := by exact_mod_cast ha1
  have habQ : (a : ℚ) ≤ (b : ℚ) := by exact_mod_cast hab
  have hb1Q : (b : ℚ) ≤ 2500 := by exact_mod_cast hb1
  rw [normal_raw]
  split_ifs
  · refine round2_uniform_between _ _ _ _ u (1000 * a) (1000 * a + 300 * (b - a)) ?_ ?_ ?_ h0 h1
      ?_ ?_ <;>
      simp only [hmin, hmax, LOW_RANGE_MULTIPLIER] <;> push_cast <;> linarith
  · refine round2_uniform_between _ _ _ _ u (1000 * a + 300 * (b - a)) (1000 * a + 800 * (b - a))
      ?_ ?_ ?_ h0 h1 ?_ ?_ <;>
      simp only [hmin, hmax, MEDIUM_RANGE_MIN_MULTIPLIER, MEDIUM_RANGE_MAX_MULTIPLIER] <;>
      push_cast <;> linarith
  · refine round2_uniform_between _ _ _ _ u (1000 * a + 800 * (b - a)) (1000 * b)
      ?_ ?_ ?_ h0 h1 ?_ ?_ <;>
      simp only [hmin, hmax, HIGH_RANGE_MIN_MULTIPLIER] <;> push_cast <;> linarith

theorem normal_amount_in_range (p : Profile) (hp : ProfileWF p) (r u : ℚ)
    (h0 : 0 ≤ u) (h1 : u ≤ 1) :
    p.typicalMin ≤ normal_amount p r u ∧ normal_amount p r u ≤ p.typicalMax ∧
      normal_amount p r u ≤ MAX_TRANSACTION_AMOUNT := by
  obtain ⟨hlo, hhi⟩ := normal_raw_in_range p hp r u h0 h1
  obtain ⟨a, b, hmin, hmax, ha1, hab, hb1⟩ := profileWF_numeric p hp
  have ha1Q : (1 : ℚ) ≤ (a : ℚ) := by exact_mod_cast ha1
  have habQ : (a : ℚ) ≤ (b : ℚ) := by exact_mod_cast hab
  have hb1Q : (b : ℚ) ≤ 2500 := by exact_mod_cast hb1
  have hmax100 : p.typicalMax ≤ MAX_TRANSACTION_AMOUNT := by
    rw [hmax, MAX_TRANSACTION_AMOUNT]; linarith
  have hmin100 : p.typicalMin ≤ MAX_TRANSACTION_AMOUNT := by
    rw [hmin, MAX_TRANSACTION_AMOUNT]; linarith
  refine ⟨le_min hlo hmin100, le_trans (min_le_left _ _) hhi, min_le_right _ _⟩

theorem anomaly_amount_bounds (p : Profile) (hp : ProfileWF p) (ty : String) (u : ℚ)
    (h0 : 0 ≤ u) (h1 : u ≤ 1) :
    0 ≤ anomaly_amount p ty u ∧ anomaly_amount p ty u ≤ MAX_TRANSACTION_AMOUNT := by
  obtain ⟨a, b, hmin, hmax, ha1, hab, hb1⟩ := profileWF_numeric p hp
  have ha1Q : (1 : ℚ) ≤ (a : ℚ) := by exact_mod_cast ha1
  have habQ : (a : ℚ) ≤ (b : ℚ) := by exact_mod_cast hab
  have hb1Q : (b : ℚ) ≤ 2500 := by exact_mod_cast hb1
  rw [anomaly_amount]
  split_ifs
  · refine round2_uniform_between _ _ _ _ u 1000000 10000000 ?_ ?_ ?_ h0 h1 ?_ ?_ <;>
      norm_num [HIGH_AMOUNT_MIN, MAX_TRANSACTION_AMOUNT]
  · refine round2_uniform_between _ _ _ _ u (2000 * b) 10000000 ?_ ?_ ?_ h0 h1 ?_ ?_ <;>
      simp only [hmax, MAX_TRANSACTION_AMOUNT] <;> push_cast <;> linarith
  · refine round2_uniform_between _ _ _ _ u (500 * b) (3000 * b) ?_ ?_ ?_ h0 h1 ?_ ?_ <;>
      simp only [hmax, MAX_TRANSACTION_AMOUNT] <;> push_cast <;> linarith
  · refine round2_uniform_between _ _ _ _ u (300 * b) (2000 * b) ?_ ?_ ?_ h0 h1 ?_ ?_ <;>
      simp only [hmax, MAX_TRANSACTION_AMOUNT] <;> push_cast <;> linarith
  · refine round2_uniform_between _ _ _ _ u 1500000 10000000 ?_ ?_ ?_ h0 h1 ?_ ?_ <;>
      norm_num [MAX_TRANSACTION_AMOUNT]

/-! ### Loop lemmas -/

theorem genRowsAux_zero (step : ProfileStore → ℕ → Transaction × ProfileStore)
    (i : ℕ) (st : ProfileStore) : genRowsAux step i 0 st = ([], st) := rfl

theorem genRowsAux_succ (step : ProfileStore → ℕ → Transaction × ProfileStore)
    (i n : ℕ) (st : ProfileStore) :
    genRowsAux step i (n + 1) st =
      ((step st i).1 :: (genRowsAux step (i + 1) n (step st i).2).1,
        (genRowsAux step (i + 1) n (step st i).2).2) := rfl

theorem genRowsAux_forall {P : Transaction → Prop} {Inv : ProfileStore → Prop}
    (step : ProfileStore → ℕ → Transaction × ProfileStore)
    (hstep : ∀ st i, Inv st → P (step st i).1 ∧ Inv (step st i).2) :
    ∀ (n i : ℕ) (st : ProfileStore), Inv st →
      (∀ t ∈ (genRowsAux step i n st).1, P t) ∧ Inv (genRowsAux step i n st).2 := by
  intro n
  induction n with
  | zero =>
      intro i st h
      rw [genRowsAux_zero]
      exact ⟨by intro t ht; simp at ht, h⟩
  | succ k ih =>
      intro i st h
      obtain ⟨hP, hInv⟩ := hstep st i h
      obtain ⟨hall, hinv2⟩ := ih (i + 1) ((step st i).2) hInv
      rw [genRowsAux_succ]
      refine ⟨?_, hinv2⟩
      intro t ht
      rcases List.mem_cons.mp ht with rfl | ht2
      · exact hP
      · exact hall t ht2

theorem genRowsAux_length (step : ProfileStore → ℕ → Transaction × ProfileStore) :
    ∀ (n i : ℕ) (st : ProfileStore), (genRowsAux step i n st).1.length = n := by
  intro n
  induction n with
  | zero => intro i st; rw [genRowsAux_zero]; rfl
  | succ k ih =>
      intro i st
      rw [genRowsAux_succ]
      simp [ih]

theorem genRowsAux_countP (step : ProfileStore → ℕ → Transaction × ProfileStore)
    (pred : Transaction → Bool) (c : Bool) (hstep : ∀ st i, pred (step st i).1 = c) :
    ∀ (n i : ℕ) (st : ProfileStore),
      (genRowsAux step i n st).1.countP pred = if c then n else 0 := by
  intro n
  induction n with
  | zero => intro i st; rw [genRowsAux_zero]; cases c <;> simp
  | succ k ih =>
      intro i st
      rw [genRowsAux_succ]
      rw [List.countP_cons, hstep st i, ih (i + 1)]
      cases c <;> simp

/-! ### Id assignment and shuffle lemmas -/

theorem assignIdsAux_countP (pred : Transaction → Bool)
    (hpred : ∀ t s, pred { t with transactionId := some s } = pred t) :
    ∀ (i : ℕ) (l : List Transaction), (assignIdsAux i l).countP pred = l.countP pred := by
  intro i l
  induction l generalizing i with
  | nil => rfl
  | cons t ts ih =>
      rw [assignIdsAux, List.countP_cons, List.countP_cons, hpred, ih]

theorem assignIdsAux_length :
    ∀ (i : ℕ) (l : List Transaction), (assignIdsAux i l).length = l.length := by
  intro i l
  induction l generalizing i with
  | nil => rfl
  | cons t ts ih => rw [assignIdsAux]; simp [ih]

theorem assignIdsAux_forall {P : Transaction → Prop}
    (hP : ∀ t s, P t → P { t with transactionId := some s }) :
    ∀ (i : ℕ) (l : List Transaction), (∀ t ∈ l, P t) → ∀ t ∈ assignIdsAux i l, P t := by
  intro i l
  induction l generalizing i with
  | nil => intro _ t ht; simp [assignIdsAux] at ht
  | cons t0 ts ih =>
      intro hall t ht
      rw [assignIdsAux] at ht
      rcases List.mem_cons.mp ht with rfl | ht2
      · exact hP t0 _ (hall t0 (List.mem_cons_self _ _))
      · exact ih (i + 1) (fun s hs => hall s (List.mem_cons_of_mem _ hs)) t ht2

theorem getD_cons_eraseIdx_perm {α : Type} :
    ∀ (l : List α) (i : ℕ) (d : α), i < l.length → (l.getD i d :: l.eraseIdx i).Perm l := by
  intro l
  induction l with
  | nil => intro i d h; simp at h
  | cons a t ih =>
      intro i d h
      cases i with
      | zero => simp [List.eraseIdx]
      | succ j =>
          have hj : j < t.length := by simpa using h
          have step1 : ((a :: t).getD (j + 1) d :: (a :: t).eraseIdx (j + 1)) =
              (t.getD j d :: a :: t.eraseIdx j) := rfl
          rw [step1]
          exact (List.Perm.swap a (t.getD j d) (t.eraseIdx j)).trans
            (List.Perm.cons a (ih j d hj))

theorem shuffleAux_perm {α : Type} :
    ∀ (fuel : ℕ) (s : ℕ) (l : List α), l.length = fuel → (shuffleAux s fuel l).Perm l := by
  intro fuel
  induction fuel with
  | zero =>
      intro s l h
      rw [List.length_eq_zero.mp h]
      exact List.Perm.refl _
  | succ k ih =>
      intro s l h
      cases l with
      | nil => simp at h
      | cons a t =>
          rw [shuffleAux]
          have hlen : s % (a :: t).length < (a :: t).length :=
            Nat.mod_lt _ (by simp)
          have herase : ((a :: t).eraseIdx (s % (a :: t).length)).length = k := by
            rw [List.length_eraseIdx_of_lt hlen]
            simpa using h
          exact (List.Perm.cons _ (ih (lcg s) _ herase)).trans
            (getD_cons_eraseIdx_perm (a :: t) _ a hlen)

theorem seededShuffle_perm {α : Type} (seed : ℕ) (l : List α) :
    (seededShuffle seed l).Perm l :=
  shuffleAux_perm l.length (lcg seed) l rfl

/-! ### Concrete draw streams for witness runs -/

def cND : NormalDraws := ⟨0, 0, 0, 0, 0, 0, 0, 0, 0, 0, 0, 0⟩

def cAD : AnomalyDraws := ⟨0, 0, 0, 0, 0, 0, 0, 0, 0, 0, 0, 0, 0, 0⟩

def cnd : ℕ → NormalDraws := fun _ => cND

def cad : ℕ → AnomalyDraws := fun _ => cAD

set_option maxRecDepth 10000

/-! ### Dataset-level counting -/

def anomalyCount (l : List Transaction) : ℕ :=
  l.countP fun t => t.isAnomaly == 1

def normalCount (l : List Transaction) : ℕ :=
  l.countP fun t => t.isAnomaly == 0

theorem generate_dataset_counts (n : ℕ) (ratio : ℚ) (seed : ℕ) (now : ℤ)
    (nd : ℕ → NormalDraws) (ad : ℕ → AnomalyDraws) :
    anomalyCount (generate_dataset n ratio seed now nd ad) = (truncQ ((n : ℚ) * ratio)).toNat ∧
    normalCount (generate_dataset n ratio seed now nd ad) =
      ((n : ℤ) - truncQ ((n : ℚ) * ratio)).toNat ∧
    (generate_dataset n ratio seed now nd ad).length =
      ((n : ℤ) - truncQ ((n : ℚ) * ratio)).toNat + (truncQ ((n : ℚ) * ratio)).toNat := by
  simp only [generate_dataset, generate_normal_transactions, generate_anomaly_transactions]
  set A := truncQ ((n : ℚ) * ratio) with hA
  set stepN := fun (st : ProfileStore) (i : ℕ) =>
    gen_normal_txn (customer_id_list (max MIN_CUSTOMERS
      (Int.fdiv ((n : ℤ) - A) (TRANSACTIONS_PER_CUSTOMER : ℤ)).toNat)) now st (nd i) with hsn
  set rN := genRowsAux stepN 0 ((n : ℤ) - A).toNat [] with hrN
  set stepA := fun (st : ProfileStore) (i : ℕ) =>
    gen_anomaly_txn (customer_id_list (max (MIN_CUSTOMERS / 2)
      (Int.fdiv A (anomaly_customers_ratio : ℤ)).toNat)) now st (ad i) with hsa
  set rA := genRowsAux stepA 0 A.toNat rN.2 with hrA
  have hperm := seededShuffle_perm seed (rN.1 ++ rA.1)
  have hid1 : ∀ (t : Transaction) (s : String),
      (fun t => t.isAnomaly == 1) { t with transactionId := some s } =
        (fun t => t.isAnomaly == 1) t := fun _ _ => rfl
  have hid0 : ∀ (t : Transaction) (s : String),
      (fun t => t.isAnomaly == 0) { t with transactionId := some s } =
        (fun t => t.isAnomaly == 0) t := fun _ _ => rfl
  have hn1 : rN.1.countP (fun t => t.isAnomaly == 1) = 0 := by
    rw [hrN]
    exact genRowsAux_countP stepN _ false (fun st i => rfl) _ 0 []
  have hn0 : rN.1.countP (fun t => t.isAnomaly == 0) = ((n : ℤ) - A).toNat := by
    rw [hrN]
    exact genRowsAux_countP stepN _ true (fun st i => rfl) _ 0 []
  have ha1 : rA.1.countP (fun t => t.isAnomaly == 1) = A.toNat := by
    rw [hrA]
    exact genRowsAux_countP stepA _ true (fun st i => rfl) _ 0 _
  have ha0 : rA.1.countP (fun t => t.isAnomaly == 0) = 0 := by
    rw [hrA]
    exact genRowsAux_countP stepA _ false (fun st i => rfl) _ 0 _
  refine ⟨?_, ?_, ?_⟩
  · rw [anomalyCount, assignIds, assignIdsAux_countP _ hid1, hperm.countP_eq,
      List.countP_append, hn1, ha1]
    omega
  · rw [normalCount, assignIds, assignIdsAux_countP _ hid0, hperm.countP_eq,
      List.countP_append, hn0, ha0]
    omega
  · rw [assignIds, assignIdsAux_length, hperm.length_eq, List.length_append,
      hrN, genRowsAux_length, hrA, genRowsAux_length]

/-! ### Arithmetic on the anomaly split -/

theorem truncQ_nonneg_eq_floor (q : ℚ) (h : 0 ≤ q) : truncQ q = ⌊q⌋ := by
  rw [truncQ, if_pos h]

theorem floor_round_gap (q : ℚ) : (⌊q⌋ - round q).natAbs ≤ 1 := by
  have h1 : ⌊q⌋ ≤ ⌊q + 1 / 2⌋ := Int.floor_mono (by linarith)
  have h2 : ⌊q + 1 / 2⌋ ≤ ⌊q + 1⌋ := Int.floor_mono (by linarith)
  have h3 : ⌊q + 1⌋ = ⌊q⌋ + 1 := by exact_mod_cast Int.floor_add_one q
  rw [round_eq]
  omega

/-! ### Claims C3 and C5 -/

/-- C3, counterexample: at n_transactions = 1 and anomaly_ratio = 9/10 the
generator produces 0 anomalous rows, while round(1 * 9/10) = 1; the claimed
equality with round fails because the source truncates with int(). -/
theorem c3_counterexample :
    anomalyCount (generate_dataset 1 (9 / 10) 0 0 cnd cad) = 0 ∧
      round ((1 : ℚ) * (9 / 10)) = 1 := by decide

/-- C3 amended: for anomaly_ratio in [0, 1), generate_dataset produces exactly
int(n * ratio) (truncation, not rounding) rows labelled is_anomaly = 1 and
n - int(n * ratio) rows labelled is_anomaly = 0, for a total of n rows; the
anomalous row count differs from round(n * ratio) by at most 1. -/
theorem c3_amended (n : ℕ) (ratio : ℚ) (seed : ℕ) (now : ℤ)
    (nd : ℕ → NormalDraws) (ad : ℕ → AnomalyDraws)
    (h0 : 0 ≤ ratio) (h1 : ratio < 1) :
    anomalyCount (generate_dataset n ratio seed now nd ad) = (truncQ ((n : ℚ) * ratio)).toNat ∧
    normalCount (generate_dataset n ratio seed now nd ad) =
      n - (truncQ ((n : ℚ) * ratio)).toNat ∧
    (generate_dataset n ratio seed now nd ad).length = n ∧
    (truncQ ((n : ℚ) * ratio) - round ((n : ℚ) * ratio)).natAbs ≤ 1 := by
  obtain ⟨hc1, hc0, hlen⟩ := generate_dataset_counts n ratio seed now nd ad
  have hq0 : 0 ≤ (n : ℚ) * ratio := mul_nonneg (by positivity) h0
  have htr : truncQ ((n : ℚ) * ratio) = ⌊(n : ℚ) * ratio⌋ := truncQ_nonneg_eq_floor _ hq0
  have hf0 : 0 ≤ ⌊(n : ℚ) * ratio⌋ := Int.floor_nonneg.mpr hq0
  have hfn : ⌊(n : ℚ) * ratio⌋ ≤ (n : ℤ) := by
    have hle : (n : ℚ) * ratio ≤ (n : ℚ) :=
      mul_le_of_le_one_right (by positivity) (le_of_lt h1)
    calc ⌊(n : ℚ) * ratio⌋ ≤ ⌊(n : ℚ)⌋ := Int.floor_mono hle
      _ = (n : ℤ) := Int.floor_natCast n
  refine ⟨hc1, ?_, ?_, ?_⟩
  · rw [hc0]
    simp only [htr]
    omega
  · rw [hlen]
    simp only [htr]
    omega
  · rw [htr]
    exact floor_round_gap _

/-- C3 witness: the amended statement at n = 2, ratio = 1/2. -/
theorem c3_witness :
    (0 ≤ (1 / 2 : ℚ) ∧ (1 / 2 : ℚ) < 1) ∧
      (anomalyCount (generate_dataset 2 (1 / 2) 0 0 cnd cad) =
          (truncQ ((2 : ℚ) * (1 / 2))).toNat ∧
        normalCount (generate_dataset 2 (1 / 2) 0 0 cnd cad) =
          2 - (truncQ ((2 : ℚ) * (1 / 2))).toNat ∧
        (generate_dataset 2 (1 / 2) 0 0 cnd cad).length = 2 ∧
        (truncQ ((2 : ℚ) * (1 / 2)) - round ((2 : ℚ) * (1 / 2))).natAbs ≤ 1) :=
  ⟨⟨by norm_num, by norm_num⟩, c3_amended 2 (1 / 2) 0 0 cnd cad (by norm_num) (by norm_num)⟩

/-- C5, counterexample: with anomaly_ratio = 2, outside [0, 1), construction
and generate_dataset raise no error at all and a dataset of 2 rows (both
anomalous, from a request of 1 transaction) is produced; the source contains
no validation of anomaly_ratio. -/
theorem c5_counterexample :
    (generate_dataset 1 2 0 0 cnd cad).length = 2 ∧
      anomalyCount (generate_dataset 1 2 0 0 cnd cad) = 2 := by decide

/-- C5 amended: no configuration error exists; for anomaly_ratio ≥ 1 the
generator silently produces a dataset of int(n * ratio) rows, all labelled
anomalous and none normal, instead of rejecting the ratio. -/
theorem c5_amended (n : ℕ) (ratio : ℚ) (seed : ℕ) (now : ℤ)
    (nd : ℕ → NormalDraws) (ad : ℕ → AnomalyDraws) (h : 1 ≤ ratio) :
    (generate_dataset n ratio seed now nd ad).length = (truncQ ((n : ℚ) * ratio)).toNat ∧
    normalCount (generate_dataset n ratio seed now nd ad) = 0 ∧
    anomalyCount (generate_dataset n ratio seed now nd ad) = (truncQ ((n : ℚ) * ratio)).toNat := by
  obtain ⟨hc1, hc0, hlen⟩ := generate_dataset_counts n ratio seed now nd ad
  have hq0 : 0 ≤ (n : ℚ) * ratio := mul_nonneg (by positivity) (by linarith)
  have htr : truncQ ((n : ℚ) * ratio) = ⌊(n : ℚ) * ratio⌋ := truncQ_nonneg_eq_floor _ hq0
  have hfn : (n : ℤ) ≤ ⌊(n : ℚ) * ratio⌋ := by
    have hle : (n : ℚ) ≤ (n : ℚ) * ratio := le_mul_of_one_le_right (by positivity) h
    calc (n : ℤ) = ⌊(n : ℚ)⌋ := (Int.floor_natCast n).symm
      _ ≤ ⌊(n : ℚ) * ratio⌋ := Int.floor_mono hle
  refine ⟨?_, ?_, hc1⟩
  · rw [hlen]
    simp only [htr]
    omega
  · rw [hc0]
    simp only [htr]
    omega

/-- C5 witness: the amended statement at n = 1, ratio = 2. -/
theorem c5_witness :
    ((1 : ℚ) ≤ 2) ∧
      ((generate_dataset 1 2 0 0 cnd cad).length = (truncQ ((1 : ℚ) * 2)).toNat ∧
        normalCount (generate_dataset 1 2 0 0 cnd cad) = 0 ∧
        anomalyCount (generate_dataset 1 2 0 0 cnd cad) = (truncQ ((1 : ℚ) * 2)).toNat) :=
  ⟨by norm_num, c5_amended 1 2 0 0 cnd cad (by norm_num)⟩

/-! ### Claim C1 -/

/-- The draws exhibiting the label-consistency failure: a high_spender
profile (index 2), anomaly type unusual_time (index 1), the unusual hour 23
(index 6 in UNUSUAL_HOURS, inside the high_spender window 8-23), and an
amount draw u = 1/10, i.e. uniform(7500, 45000) = 11250, inside the
high_spender range 1000-15000. -/
def c1Draws : AnomalyDraws := ⟨0, 2, 0, 1, 0, 0, 1 / 10, 6, 0, 0, 0, 0, 0, 0⟩

/-- C1: an anomalous row produced by the unusual_time recipe for a
high_spender customer can be in-profile in all three dimensions at once:
amount 11250 lies in the customer's typical range, hour 23 lies in the
customer's typical hour window, and the destination country is one of the
customer's typical countries, yet the row is labelled is_anomaly = 1.  The
source's own rule comment says the hour is outside the customer's pattern,
but UNUSUAL_HOURS contains 23 while the high_spender hour range is (8, 23). -/
theorem c1_code_bug :
    (gen_anomaly_txn ["CUST000000"] 0 [] c1Draws).1.isAnomaly = 1 ∧
    (get_customer_profile [] "CUST000000" 2 0).1.typicalMin ≤
      (gen_anomaly_txn ["CUST000000"] 0 [] c1Draws).1.amount ∧
    (gen_anomaly_txn ["CUST000000"] 0 [] c1Draws).1.amount ≤
      (get_customer_profile [] "CUST000000" 2 0).1.typicalMax ∧
    (get_customer_profile [] "CUST000000" 2 0).1.hourMin ≤
      (gen_anomaly_txn ["CUST000000"] 0 [] c1Draws).1.hour ∧
    (gen_anomaly_txn ["CUST000000"] 0 [] c1Draws).1.hour ≤
      (get_customer_profile [] "CUST000000" 2 0).1.hourMax ∧
    (gen_anomaly_txn ["CUST000000"] 0 [] c1Draws).1.destinationCountry ∈
      (get_customer_profile [] "CUST000000" 2 0).1.typicalCountries := by decide

/-! ### Claim C8 -/

def c8Det : AnomalyDetector := ⟨"xgboost", 5 / 100, 42, none⟩

/-- C8, counterexample: for the unsupported model_type xgboost, train does
raise, but score_samples silently returns a zero score vector (np.zeros
negated) instead of failing: the detector operation produces results for the
unsupported variant. -/
theorem c8_counterexample :
    AnomalyDetector.train c8Det = Except.error "Modelo no soportado: xgboost" ∧
      AnomalyDetector.score_samples c8Det [3, 7] [[1], [2]] = [0, 0] := by
  constructor
  · rfl
  · show (List.replicate 2 (0 : ℚ)).map (fun s => -s) = [0, 0]
    simp [List.replicate]

/-- C8 amended: for every model_type other than isolation_forest and lof,
train fails fast with the configuration error before any fitting work, but
score_samples does not raise: it silently returns an all-zeros score vector
of the length of its input. -/
theorem c8_amended (d : AnomalyDetector)
    (h1 : d.model_type ≠ "isolation_forest") (h2 : d.model_type ≠ "lof") :
    AnomalyDetector.train d = Except.error ("Modelo no soportado: " ++ d.model_type) ∧
      ∀ (ms : List ℚ) (X : List (List ℚ)),
        AnomalyDetector.score_samples d ms X = List.replicate X.length 0 := by
  constructor
  · rw [AnomalyDetector.train, if_neg h1, if_neg h2]
  · intro ms X
    rw [AnomalyDetector.score_samples]
    rw [if_neg h1, if_neg h2]
    simp

/-- C8 witness: the amended statement at the xgboost detector. -/
theorem c8_witness :
    (c8Det.model_type ≠ "isolation_forest" ∧ c8Det.model_type ≠ "lof") ∧
      (AnomalyDetector.train c8Det =
          Except.error ("Modelo no soportado: " ++ c8Det.model_type) ∧
        ∀ (ms : List ℚ) (X : List (List ℚ)),
          AnomalyDetector.score_samples c8Det ms X = List.replicate X.length 0) :=
  ⟨⟨by decide, by decide⟩, c8_amended c8Det (by decide) (by decide)⟩

/-! ### Claim C6, counterexample -/

def c6Draws : NormalDraws := ⟨0, 0, 0, 0, 0, 0, 0, 0, 0, 0, 2, 0⟩

def c6nd : ℕ → NormalDraws := fun _ => c6Draws

/-- C6, counterexample: the generator emits rows whose channel is the
Spanish value cajero, which is not in the claimed enumeration
web, app, atm, branch; the source channel list is
[web, app, cajero, sucursal]. -/
theorem c6_counterexample :
    ((generate_dataset 1 0 0 0 c6nd cad).getD 0 dTxn).channel = "cajero" ∧
      "cajero" ∉ (["web", "app", "atm", "branch"] : List String) := by decide

/-! ### Dataset-level row properties -/

theorem generate_dataset_forall {P : Transaction → Prop} {I : ProfileStore → Prop}
    (n : ℕ) (ratio : ℚ) (seed : ℕ) (now : ℤ)
    (nd : ℕ → NormalDraws) (ad : ℕ → AnomalyDraws)
    (hI0 : I [])
    (hid : ∀ (t : Transaction) (s : String), P t → P { t with transactionId := some s })
    (hn : ∀ (ids : List String) (st : ProfileStore) (i : ℕ), I st →
      P (gen_normal_txn ids now st (nd i)).1 ∧ I (gen_normal_txn ids now st (nd i)).2)
    (ha : ∀ (ids : List String) (st : ProfileStore) (i : ℕ), I st →
      P (gen_anomaly_txn ids now st (ad i)).1 ∧ I (gen_anomaly_txn ids now st (ad i)).2) :
    ∀ t ∈ generate_dataset n ratio seed now nd ad, P t := by
  intro t ht
  simp only [generate_dataset, generate_normal_transactions,
    generate_anomaly_transactions] at ht
  set A := truncQ ((n : ℚ) * ratio) with hA
  set stepN := fun (st : ProfileStore) (i : ℕ) =>
    gen_normal_txn (customer_id_list (max MIN_CUSTOMERS
      (Int.fdiv ((n : ℤ) - A) (TRANSACTIONS_PER_CUSTOMER : ℤ)).toNat)) now st (nd i) with hsn
  set stepA := fun (st : ProfileStore) (i : ℕ) =>
    gen_anomaly_txn (customer_id_list (max (MIN_CUSTOMERS / 2)
      (Int.fdiv A (anomaly_customers_ratio : ℤ)).toNat)) now st (ad i) with hsa
  obtain ⟨hallN, hinvN⟩ :=
    genRowsAux_forall stepN (fun st i hst => hn _ st i hst) ((n : ℤ) - A).toNat 0 [] hI0
  obtain ⟨hallA, hinvA⟩ :=
    genRowsAux_forall stepA (fun st i hst => ha _ st i hst) A.toNat 0 _ hinvN
  refine assignIdsAux_forall hid 0 _ ?_ t ht
  intro s hs
  rcases List.mem_append.mp ((seededShuffle_perm seed _).subset hs) with h1 | h2
  · exact hallN s h1
  · exact hallA s h2

/-- C6 amended: every generated row's channel is one of the source
enumeration web, app, cajero, sucursal (Spanish names, not the claimed
web, app, atm, branch), and every device_type is one of
desktop, mobile, tablet, atm, pos as claimed. -/
theorem c6_amended (n : ℕ) (ratio : ℚ) (seed : ℕ) (now : ℤ)
    (nd : ℕ → NormalDraws) (ad : ℕ → AnomalyDraws) (t : Transaction)
    (ht : t ∈ generate_dataset n ratio seed now nd ad) :
    t.channel ∈ CHANNELS ∧ t.deviceType ∈ DEVICES := by
  have hch : CHANNELS ≠ [] := by simp [CHANNELS]
  have hdv : DEVICES ≠ [] := by simp [DEVICES]
  refine generate_dataset_forall
    (P := fun t => t.channel ∈ CHANNELS ∧ t.deviceType ∈ DEVICES)
    (I := fun _ => True) n ratio seed now nd ad trivial
    ?_ ?_ ?_ t ht
  · intro t s h
    exact h
  · intro ids st i _
    exact ⟨⟨listChoice_mem _ _ _ hch, listChoice_mem _ _ _ hdv⟩, trivial⟩
  · intro ids st i _
    exact ⟨⟨listChoice_mem _ _ _ hch, listChoice_mem _ _ _ hdv⟩, trivial⟩

/-- C6 witness: the amended statement at a concrete one-row run. -/
theorem c6_witness :
    ((generate_dataset 1 0 0 0 cnd cad).getD 0 dTxn ∈ generate_dataset 1 0 0 0 cnd cad) ∧
      (((generate_dataset 1 0 0 0 cnd cad).getD 0 dTxn).channel ∈ CHANNELS ∧
        ((generate_dataset 1 0 0 0 cnd cad).getD 0 dTxn).deviceType ∈ DEVICES) :=
  ⟨by decide, c6_amended 1 0 0 0 cnd cad _ (by decide)⟩

/-! ### Claim C7 -/

/-- C7: every row of a generated dataset, normal or anomalous, for every
anomaly type and customer profile, has 0 ≤ amount ≤ 100000, provided every
uniform draw parameter is in [0, 1] (which random.uniform guarantees). -/
theorem c7_amount_bounds (n : ℕ) (ratio : ℚ) (seed : ℕ) (now : ℤ)
    (nd : ℕ → NormalDraws) (ad : ℕ → AnomalyDraws)
    (hnd : ∀ i, 0 ≤ (nd i).amountU ∧ (nd i).amountU ≤ 1)
    (had : ∀ i, 0 ≤ (ad i).amountU ∧ (ad i).amountU ≤ 1)
    (t : Transaction) (ht : t ∈ generate_dataset n ratio seed now nd ad) :
    0 ≤ t.amount ∧ t.amount ≤ MAX_TRANSACTION_AMOUNT := by
  refine generate_dataset_forall
    (P := fun t => 0 ≤ t.amount ∧ t.amount ≤ MAX_TRANSACTION_AMOUNT)
    (I := StoreWF) n ratio seed now nd ad ?_ ?_ ?_ ?_ t ht
  · intro e he
    simp at he
  · intro t s h
    exact h
  · intro ids st i hst
    obtain ⟨hwf, hwfst⟩ := get_customer_profile_wf st
      (listChoice ids "CUST000000" (nd i).customerIdx)
      (nd i).profileTypeIdx (nd i).homeCountryIdx hst
    have hb := normal_amount_in_range _ hwf (nd i).randVal (nd i).amountU (hnd i).1 (hnd i).2
    obtain ⟨a, b, hmin, hmax, ha1, hab, hb1⟩ := profileWF_numeric _ hwf
    have ha1Q : (1 : ℚ) ≤ (a : ℚ) := by exact_mod_cast ha1
    have hmin0 : (0 : ℚ) ≤ (get_customer_profile st
        (listChoice ids "CUST000000" (nd i).customerIdx)
        (nd i).profileTypeIdx (nd i).homeCountryIdx).1.typicalMin := by
      rw [hmin]
      linarith
    refine ⟨⟨le_trans hmin0 hb.1, hb.2.2⟩, ?_⟩
    exact bumpCount_wf _ _ hwfst
  · intro ids st i hst
    obtain ⟨hwf, hwfst⟩ := get_customer_profile_wf st
      (listChoice ids "CUST000000" (ad i).customerIdx)
      (ad i).profileTypeIdx (ad i).homeCountryIdx hst
    have hb := anomaly_amount_bounds _ hwf
      (listChoice ANOMALY_TYPES "high_amount_unusual_user" (ad i).anomalyTypeIdx)
      (ad i).amountU (had i).1 (had i).2
    exact ⟨⟨hb.1, hb.2⟩, hwfst⟩

/-- C7 witness: the bounds at a concrete one-row run. -/
theorem c7_witness :
    ((∀ i, 0 ≤ (cnd i).amountU ∧ (cnd i).amountU ≤ 1) ∧
      (∀ i, 0 ≤ (cad i).amountU ∧ (cad i).amountU ≤ 1) ∧
      (generate_dataset 1 0 0 0 cnd cad).getD 0 dTxn ∈ generate_dataset 1 0 0 0 cnd cad) ∧
      (0 ≤ ((generate_dataset 1 0 0 0 cnd cad).getD 0 dTxn).amount ∧
        ((generate_dataset 1 0 0 0 cnd cad).getD 0 dTxn).amount ≤ MAX_TRANSACTION_AMOUNT) :=
  ⟨⟨fun _ => ⟨le_refl 0, by show (0 : ℚ) ≤ 1; norm_num⟩,
      fun _ => ⟨le_refl 0, by show (0 : ℚ) ≤ 1; norm_num⟩, by decide⟩,
    c7_amount_bounds 1 0 0 0 cnd cad
      (fun _ => ⟨le_refl 0, by show (0 : ℚ) ≤ 1; norm_num⟩)
      (fun _ => ⟨le_refl 0, by show (0 : ℚ) ≤ 1; norm_num⟩) _ (by decide)⟩

/-! ### Claim C4 -/

theorem normal_raw_segments (p : Profile) (hp : ProfileWF p) (r u : ℚ)
    (h0 : 0 ≤ u) (h1 : u ≤ 1) :
    (r < LOW_RANGE_PROBABILITY →
      p.typicalMin ≤ normal_raw p r u ∧
        normal_raw p r u ≤
          p.typicalMin + (p.typicalMax - p.typicalMin) * LOW_RANGE_MULTIPLIER) ∧
    (¬ r < LOW_RANGE_PROBABILITY → r < MEDIUM_RANGE_PROBABILITY →
      p.typicalMin + (p.typicalMax - p.typicalMin) * MEDIUM_RANGE_MIN_MULTIPLIER ≤
          normal_raw p r u ∧
        normal_raw p r u ≤
          p.typicalMin + (p.typicalMax - p.typicalMin) * MEDIUM_RANGE_MAX_MULTIPLIER) ∧
    (¬ r < LOW_RANGE_PROBABILITY → ¬ r < MEDIUM_RANGE_PROBABILITY →
      p.typicalMin + (p.typicalMax - p.typicalMin) * HIGH_RANGE_MIN_MULTIPLIER ≤
          normal_raw p r u ∧
        normal_raw p r u ≤ p.typicalMax) := by
  obtain ⟨a, b, hmin, hmax, ha1, hab, hb1⟩ := profileWF_numeric p hp
  have ha1Q : (1 : ℚ) ≤ (a : ℚ) := by exact_mod_cast ha1
  have habQ : (a : ℚ) ≤ (b : ℚ) := by exact_mod_cast hab
  have hb1Q : (b : ℚ) ≤ 2500 := by exact_mod_cast hb1
  refine ⟨?_, ?_, ?_⟩
  · intro hr
    rw [normal_raw, if_pos hr]
    refine round2_uniform_between _ _ _ _ u (1000 * a) (1000 * a + 300 * (b - a))
      ?_ ?_ ?_ h0 h1 ?_ ?_ <;>
      simp only [hmin, hmax, LOW_RANGE_MULTIPLIER] <;> push_cast <;> linarith
  · intro hr1 hr2
    rw [normal_raw, if_neg hr1, if_pos hr2]
    refine round2_uniform_between _ _ _ _ u (1000 * a + 300 * (b - a))
      (1000 * a + 800 * (b - a)) ?_ ?_ ?_ h0 h1 ?_ ?_ <;>
      simp only [hmin, hmax, MEDIUM_RANGE_MIN_MULTIPLIER, MEDIUM_RANGE_MAX_MULTIPLIER] <;>
      push_cast <;> linarith
  · intro hr1 hr2
    rw [normal_raw, if_neg hr1, if_neg hr2]
    refine round2_uniform_between _ _ _ _ u (1000 * a + 800 * (b - a)) (1000 * b)
      ?_ ?_ ?_ h0 h1 ?_ ?_ <;>
      simp only [hmin, hmax, HIGH_RANGE_MIN_MULTIPLIER] <;> push_cast <;> linarith

/-- C4: for every normal row, the amount is the three-segment
piecewise-uniform draw over the owning profile's range prescribed by the
spec - picked by the 0.70 / 0.95 thresholds on the selector draw, each
segment bounded as claimed - then clamped at the global maximum 100000,
and it always lies within the profile's typical range. -/
theorem c4_normal_amount (ids : List String) (st : ProfileStore) (now : ℤ)
    (d : NormalDraws) (hst : StoreWF st) (h0 : 0 ≤ d.amountU) (h1 : d.amountU ≤ 1) :
    let p := (get_customer_profile st (listChoice ids "CUST000000" d.customerIdx)
      d.profileTypeIdx d.homeCountryIdx).1
    let q := (gen_normal_txn ids now st d).1
    q.isAnomaly = 0 ∧
    q.amount = min (normal_raw p d.randVal d.amountU) MAX_TRANSACTION_AMOUNT ∧
    (d.randVal < LOW_RANGE_PROBABILITY →
      p.typicalMin ≤ q.amount ∧
        q.amount ≤ p.typicalMin + (p.typicalMax - p.typicalMin) * LOW_RANGE_MULTIPLIER) ∧
    (¬ d.randVal < LOW_RANGE_PROBABILITY → d.randVal < MEDIUM_RANGE_PROBABILITY →
      p.typicalMin + (p.typicalMax - p.typicalMin) * MEDIUM_RANGE_MIN_MULTIPLIER ≤ q.amount ∧
        q.amount ≤ p.typicalMin + (p.typicalMax - p.typicalMin) * MEDIUM_RANGE_MAX_MULTIPLIER) ∧
    (¬ d.randVal < LOW_RANGE_PROBABILITY → ¬ d.randVal < MEDIUM_RANGE_PROBABILITY →
      p.typicalMin + (p.typicalMax - p.typicalMin) * HIGH_RANGE_MIN_MULTIPLIER ≤ q.amount ∧
        q.amount ≤ p.typicalMax) ∧
    p.typicalMin ≤ q.amount ∧ q.amount ≤ p.typicalMax ∧
    q.amount ≤ MAX_TRANSACTION_AMOUNT := by
  intro p q
  have hwf : ProfileWF p := (get_customer_profile_wf st
    (listChoice ids "CUST000000" d.customerIdx)
    d.profileTypeIdx d.homeCountryIdx hst).1
  have hin := normal_amount_in_range p hwf d.randVal d.amountU h0 h1
  have hraw := normal_raw_in_range p hwf d.randVal d.amountU h0 h1
  obtain ⟨a, b, hmin, hmax, ha1, hab, hb1⟩ := profileWF_numeric p hwf
  have habQ : (a : ℚ) ≤ (b : ℚ) := by exact_mod_cast hab
  have hb1Q : (b : ℚ) ≤ 2500 := by exact_mod_cast hb1
  have hmax100 : p.typicalMax ≤ MAX_TRANSACTION_AMOUNT := by
    rw [hmax, MAX_TRANSACTION_AMOUNT]
    linarith
  have hclamp : q.amount = normal_raw p d.randVal d.amountU := by
    show min (normal_raw p d.randVal d.amountU) MAX_TRANSACTION_AMOUNT =
      normal_raw p d.randVal d.amountU
    exact min_eq_left (le_trans hraw.2 hmax100)
  have hsegs := normal_raw_segments p hwf d.randVal d.amountU h0 h1
  refine ⟨rfl, rfl, ?_, ?_, ?_, ?_, ?_, ?_⟩
  · intro hr
    rw [hclamp]
    exact hsegs.1 hr
  · intro hr1 hr2
    rw [hclamp]
    exact hsegs.2.1 hr1 hr2
  · intro hr1 hr2
    rw [hclamp]
    exact hsegs.2.2 hr1 hr2
  · rw [hclamp]
    exact hraw.1
  · rw [hclamp]
    exact hraw.2
  · exact hin.2.2

/-- C4 witness: the statement at a concrete draw on the empty store. -/
theorem c4_witness :
    (StoreWF ([] : ProfileStore) ∧ 0 ≤ cND.amountU ∧ cND.amountU ≤ 1) ∧
      (let p := (get_customer_profile [] (listChoice ["CUST000000"] "CUST000000"
          cND.customerIdx) cND.profileTypeIdx cND.homeCountryIdx).1
      let q := (gen_normal_txn ["CUST000000"] 0 [] cND).1
      q.isAnomaly = 0 ∧
      q.amount = min (normal_raw p cND.randVal cND.amountU) MAX_TRANSACTION_AMOUNT ∧
      (cND.randVal < LOW_RANGE_PROBABILITY →
        p.typicalMin ≤ q.amount ∧
          q.amount ≤ p.typicalMin + (p.typicalMax - p.typicalMin) * LOW_RANGE_MULTIPLIER) ∧
      (¬ cND.randVal < LOW_RANGE_PROBABILITY → cND.randVal < MEDIUM_RANGE_PROBABILITY →
        p.typicalMin + (p.typicalMax - p.typicalMin) * MEDIUM_RANGE_MIN_MULTIPLIER ≤ q.amount ∧
          q.amount ≤ p.typicalMin + (p.typicalMax - p.typicalMin) * MEDIUM_RANGE_MAX_MULTIPLIER) ∧
      (¬ cND.randVal < LOW_RANGE_PROBABILITY → ¬ cND.randVal < MEDIUM_RANGE_PROBABILITY →
        p.typicalMin + (p.typicalMax - p.typicalMin) * HIGH_RANGE_MIN_MULTIPLIER ≤ q.amount ∧
          q.amount ≤ p.typicalMax) ∧
      p.typicalMin ≤ q.amount ∧ q.amount ≤ p.typicalMax ∧
      q.amount ≤ MAX_TRANSACTION_AMOUNT) :=
  ⟨⟨fun e he => absurd he (List.not_mem_nil e), le_refl 0,
      by show (0 : ℚ) ≤ 1; norm_num⟩,
    c4_normal_amount ["CUST000000"] [] 0 cND
      (fun e he => absurd he (List.not_mem_nil e)) (le_refl 0)
      (by show (0 : ℚ) ≤ 1; norm_num)⟩

/-! ### Claim C2 -/

/-- Erase the only field that depends on the wall clock. -/
def stripTs (t : Transaction) : Transaction :=
  { t with timestamp := 0 }

theorem getD_map {α β : Type} (f : α → β) :
    ∀ (l : List α) (i : ℕ) (d : α), (l.map f).getD i (f d) = f (l.getD i d) := by
  intro l
  induction l with
  | nil => intro i d; rfl
  | cons a t ih =>
      intro i d
      cases i with
      | zero => rfl
      | succ j => exact ih j d

theorem eraseIdx_map {α β : Type} (f : α → β) :
    ∀ (l : List α) (i : ℕ), (l.map f).eraseIdx i = (l.eraseIdx i).map f := by
  intro l
  induction l with
  | nil => intro i; rfl
  | cons a t ih =>
      intro i
      cases i with
      | zero => rfl
      | succ j => simp only [List.map_cons, List.eraseIdx_cons_succ, ih]

theorem shuffleAux_map {α β : Type} (f : α → β) :
    ∀ (fuel s : ℕ) (l : List α), shuffleAux s fuel (l.map f) = (shuffleAux s fuel l).map f := by
  intro fuel
  induction fuel with
  | zero => intro s l; rfl
  | succ k ih =>
      intro s l
      cases l with
      | nil => rfl
      | cons a t =>
          show ((a :: t).map f).getD (s % ((a :: t).map f).length) (f a) ::
              shuffleAux (lcg s) k (((a :: t).map f).eraseIdx (s % ((a :: t).map f).length)) = _
          rw [List.length_map, getD_map, eraseIdx_map, ih]
          rfl

theorem seededShuffle_map {α β : Type} (f : α → β) (seed : ℕ) (l : List α) :
    seededShuffle seed (l.map f) = (seededShuffle seed l).map f := by
  rw [seededShuffle, seededShuffle, List.length_map, shuffleAux_map]

theorem assignIdsAux_map_stripTs :
    ∀ (i : ℕ) (l : List Transaction),
      (assignIdsAux i l).map stripTs = assignIdsAux i (l.map stripTs) := by
  intro i l
  induction l generalizing i with
  | nil => rfl
  | cons t ts ih =>
      show stripTs { t with transactionId := some ("TXN" ++ zfill 8 i) } ::
        (assignIdsAux (i + 1) ts).map stripTs = _
      rw [ih]
      rfl

theorem genRowsAux_stripTs (s1 s2 : ProfileStore → ℕ → Transaction × ProfileStore)
    (h : ∀ st i, stripTs (s1 st i).1 = stripTs (s2 st i).1 ∧ (s1 st i).2 = (s2 st i).2) :
    ∀ (n i : ℕ) (st : ProfileStore),
      (genRowsAux s1 i n st).1.map stripTs = (genRowsAux s2 i n st).1.map stripTs ∧
      (genRowsAux s1 i n st).2 = (genRowsAux s2 i n st).2 := by
  intro n
  induction n with
  | zero => intro i st; exact ⟨rfl, rfl⟩
  | succ k ih =>
      intro i st
      obtain ⟨ht, hs⟩ := h st i
      obtain ⟨ihl, ihs⟩ := ih (i + 1) (s1 st i).2
      rw [genRowsAux_succ, genRowsAux_succ]
      constructor
      · rw [List.map_cons, List.map_cons, ht, ihl, hs]
      · rw [ihs, hs]

/-- C2 amended: for a fixed seed, identical parameters and an identical
random stream, two runs agree on every field except timestamp regardless of
the wall-clock instant; in particular two runs reading the same clock are
byte-identical, but runs at different instants differ in the timestamps. -/
theorem c2_amended (n : ℕ) (ratio : ℚ) (seed : ℕ) (now1 now2 : ℤ)
    (nd : ℕ → NormalDraws) (ad : ℕ → AnomalyDraws) :
    (generate_dataset n ratio seed now1 nd ad).map stripTs =
      (generate_dataset n ratio seed now2 nd ad).map stripTs := by
  simp only [generate_dataset, generate_normal_transactions, generate_anomaly_transactions]
  set A := truncQ ((n : ℚ) * ratio) with hA
  set idsN := customer_id_list (max MIN_CUSTOMERS
    (Int.fdiv ((n : ℤ) - A) (TRANSACTIONS_PER_CUSTOMER : ℤ)).toNat) with hidsN
  set idsA := customer_id_list (max (MIN_CUSTOMERS / 2)
    (Int.fdiv A (anomaly_customers_ratio : ℤ)).toNat) with hidsA
  have hrowN : ∀ (st : ProfileStore) (i : ℕ),
      stripTs (gen_normal_txn idsN now1 st (nd i)).1 =
        stripTs (gen_normal_txn idsN now2 st (nd i)).1 ∧
      (gen_normal_txn idsN now1 st (nd i)).2 = (gen_normal_txn idsN now2 st (nd i)).2 :=
    fun st i => ⟨rfl, rfl⟩
  have hrowA : ∀ (st : ProfileStore) (i : ℕ),
      stripTs (gen_anomaly_txn idsA now1 st (ad i)).1 =
        stripTs (gen_anomaly_txn idsA now2 st (ad i)).1 ∧
      (gen_anomaly_txn idsA now1 st (ad i)).2 = (gen_anomaly_txn idsA now2 st (ad i)).2 :=
    fun st i => ⟨rfl, rfl⟩
  obtain ⟨hmapN, hstN⟩ := genRowsAux_stripTs _ _ hrowN ((n : ℤ) - A).toNat 0 []
  obtain ⟨hmapA, hstA⟩ := genRowsAux_stripTs _ _ hrowA A.toNat 0
    (genRowsAux (fun st i => gen_normal_txn idsN now1 st (nd i)) 0 ((n : ℤ) - A).toNat []).2
  rw [assignIds, assignIds, assignIdsAux_map_stripTs, assignIdsAux_map_stripTs]
  rw [← seededShuffle_map, ← seededShuffle_map]
  rw [List.map_append, List.map_append, hmapN, hmapA, hstN]

/-- C2, counterexample: two runs with the same seed, the same parameters and
the same random stream, but started one day apart, produce different outputs:
every timestamp shifts with the wall clock, because the source anchors
timestamps at datetime.now() which is not covered by the seed. -/
theorem c2_counterexample :
    generate_dataset 1 0 0 0 cnd cad ≠ generate_dataset 1 0 0 1440 cnd cad := by decide

/-! ### Claim C9 -/

/-- All profile fields except the running transaction counter agree. -/
def sameProfileExceptCount (p q : Profile) : Prop :=
  p.ptype = q.ptype ∧ p.typicalMin = q.typicalMin ∧ p.typicalMax = q.typicalMax ∧
    p.hourMin = q.hourMin ∧ p.hourMax = q.hourMax ∧
    p.typicalCountries = q.typicalCountries ∧ p.homeCountry = q.homeCountry

theorem sameProfileExceptCount_refl (p : Profile) : sameProfileExceptCount p p :=
  ⟨rfl, rfl, rfl, rfl, rfl, rfl, rfl⟩

theorem sameProfileExceptCount_trans {p q r : Profile}
    (h1 : sameProfileExceptCount p q) (h2 : sameProfileExceptCount q r) :
    sameProfileExceptCount p r := by
  obtain ⟨a1, a2, a3, a4, a5, a6, a7⟩ := h1
  obtain ⟨b1, b2, b3, b4, b5, b6, b7⟩ := h2
  exact ⟨a1.trans b1, a2.trans b2, a3.trans b3, a4.trans b4, a5.trans b5,
    a6.trans b6, a7.trans b7⟩

theorem get_customer_profile_find (st : ProfileStore) (c0 : String) (i j : ℕ)
    (cid : String) (p : Profile) (h : storeFind st cid = some p) :
    storeFind (get_customer_profile st c0 i j).2 cid = some p := by
  rw [get_customer_profile]
  cases hf : storeFind st c0 with
  | some q => exact h
  | none =>
      show storeFind ((c0, create_customer_profile i j) :: st) cid = some p
      rw [storeFind]
      by_cases hc : c0 = cid
      · rw [hc] at hf
        rw [hf] at h
        cases h
      · rw [if_neg hc]
        exact h

theorem bumpCount_find : ∀ (st : ProfileStore) (c cid : String) (p : Profile),
    storeFind st cid = some p →
    storeFind (bumpCount st c) cid =
      some (if cid = c then { p with transactionCount := p.transactionCount + 1 } else p) := by
  intro st
  induction st with
  | nil => intro c cid p h; simp [storeFind] at h
  | cons e st ih =>
      intro c cid p h
      obtain ⟨k, q⟩ := e
      rw [storeFind] at h
      by_cases hk : k = cid
      · rw [if_pos hk] at h
        have hq : q = p := Option.some_inj.mp h
        subst hq hk
        by_cases hc : k = c
        · rw [bumpCount, List.map_cons]
          show storeFind ((if k = c then (k, { q with transactionCount := q.transactionCount + 1 })
            else (k, q)) :: bumpCount st c) k = _
          rw [if_pos hc, storeFind]
          simp [hc]
        · rw [bumpCount, List.map_cons]
          show storeFind ((if k = c then (k, { q with transactionCount := q.transactionCount + 1 })
            else (k, q)) :: bumpCount st c) k = _
          rw [if_neg hc, storeFind]
          simp [hc]
      · rw [if_neg hk] at h
        rw [bumpCount, List.map_cons]
        show storeFind ((if k = c then (k, { q with transactionCount := q.transactionCount + 1 })
          else (k, q)) :: bumpCount st c) cid = _
        by_cases hc : k = c
        · rw [if_pos hc, storeFind, if_neg (hc ▸ hk)]
          exact ih c cid p h
        · rw [if_neg hc, storeFind, if_neg hk]
          exact ih c cid p h

theorem genRowsAux_find_pres (step : ProfileStore → ℕ → Transaction × ProfileStore)
    (hstep : ∀ (st : ProfileStore) (i : ℕ) (cid : String) (p : Profile),
      storeFind st cid = some p → storeFind (step st i).2 cid = some p) :
    ∀ (n i : ℕ) (st : ProfileStore) (cid : String) (p : Profile),
      storeFind st cid = some p → storeFind (genRowsAux step i n st).2 cid = some p := by
  intro n
  induction n with
  | zero => intro i st cid p h; exact h
  | succ k ih =>
      intro i st cid p h
      rw [genRowsAux_succ]
      exact ih (i + 1) _ cid p (hstep st i cid p h)

theorem genRowsAux_find_evolves (step : ProfileStore → ℕ → Transaction × ProfileStore)
    (hstep : ∀ (st : ProfileStore) (i : ℕ) (cid : String) (p : Profile),
      storeFind st cid = some p → ∃ q, storeFind (step st i).2 cid = some q ∧
        sameProfileExceptCount p q ∧ p.transactionCount ≤ q.transactionCount) :
    ∀ (n i : ℕ) (st : ProfileStore) (cid : String) (p : Profile),
      storeFind st cid = some p → ∃ q, storeFind (genRowsAux step i n st).2 cid = some q ∧
        sameProfileExceptCount p q ∧ p.transactionCount ≤ q.transactionCount := by
  intro n
  induction n with
  | zero =>
      intro i st cid p h
      exact ⟨p, h, sameProfileExceptCount_refl p, le_refl _⟩
  | succ k ih =>
      intro i st cid p h
      obtain ⟨q, hq, hsame, hle⟩ := hstep st i cid p h
      obtain ⟨r, hr, hsame2, hle2⟩ := ih (i + 1) _ cid q hq
      rw [genRowsAux_succ]
      exact ⟨r, hr, sameProfileExceptCount_trans hsame hsame2, le_trans hle hle2⟩

/-- C9: anomalous-row synthesis never mutates an existing profile - every
stored profile is found unchanged afterwards - while normal-row synthesis
changes at most the transaction_count field, which only ever grows; all
other profile fields are immutable after creation. -/
theorem c9_profile_frame (m k : ℤ) (now : ℤ)
    (ad : ℕ → AnomalyDraws) (nd : ℕ → NormalDraws)
    (st : ProfileStore) (cid : String) (p : Profile)
    (h : storeFind st cid = some p) :
    storeFind (generate_anomaly_transactions m now ad st).2 cid = some p ∧
    ∃ q, storeFind (generate_normal_transactions k now nd st).2 cid = some q ∧
      sameProfileExceptCount p q ∧ p.transactionCount ≤ q.transactionCount := by
  constructor
  · rw [generate_anomaly_transactions]
    refine genRowsAux_find_pres _ ?_ m.toNat 0 st cid p h
    intro st1 i cid1 p1 h1
    exact get_customer_profile_find st1 _ _ _ cid1 p1 h1
  · rw [generate_normal_transactions]
    refine genRowsAux_find_evolves _ ?_ k.toNat 0 st cid p h
    intro st1 i cid1 p1 h1
    have h2 := get_customer_profile_find st1
      (listChoice (customer_id_list (max MIN_CUSTOMERS
        (Int.fdiv k (TRANSACTIONS_PER_CUSTOMER : ℤ)).toNat)) "CUST000000" (nd i).customerIdx)
      (nd i).profileTypeIdx (nd i).homeCountryIdx cid1 p1 h1
    have h3 := bumpCount_find _
      (listChoice (customer_id_list (max MIN_CUSTOMERS
        (Int.fdiv k (TRANSACTIONS_PER_CUSTOMER : ℤ)).toNat)) "CUST000000" (nd i).customerIdx)
      cid1 p1 h2
    refine ⟨_, h3, ?_, ?_⟩
    · split_ifs
      · exact ⟨rfl, rfl, rfl, rfl, rfl, rfl, rfl⟩
      · exact sameProfileExceptCount_refl p1
    · split_ifs
      · exact Nat.le_succ _
      · exact le_refl _

/-- C9 witness: the frame property at a concrete one-entry store. -/
theorem c9_witness :
    (storeFind [("CUST000000", create_customer_profile 0 0)] "CUST000000" =
        some (create_customer_profile 0 0)) ∧
      (storeFind (generate_anomaly_transactions 1 0 cad
          [("CUST000000", create_customer_profile 0 0)]).2 "CUST000000" =
          some (create_customer_profile 0 0) ∧
        ∃ q, storeFind (generate_normal_transactions 1 0 cnd
            [("CUST000000", create_customer_profile 0 0)]).2 "CUST000000" = some q ∧
          sameProfileExceptCount (create_customer_profile 0 0) q ∧
          (create_customer_profile 0 0).transactionCount ≤ q.transactionCount) :=
  ⟨by decide, c9_profile_frame 1 1 0 cad cnd _ "CUST000000" _ (by decide)⟩

/-! ### Claim C10 -/

theorem lookup_cons_self (k : String) (cls : List String)
    (es : List (String × List String)) : ((k, cls) :: es).lookup k = some cls := by
  simp [List.lookup]

theorem lookup_cons_ne (k c : String) (cls : List String)
    (es : List (String × List String)) (h : c ≠ k) :
    ((k, cls) :: es).lookup c = es.lookup c := by
  have hb : (c == k) = false := beq_eq_false_iff_ne.mpr h
  simp [List.lookup, hb]

theorem leTransform_error : ∀ (classes vals : List String) (v : String),
    v ∈ vals → v ∉ classes → ∃ e, leTransform classes vals = Except.error e := by
  intro classes vals
  induction vals with
  | nil => intro v hv; exact absurd hv (List.not_mem_nil v)
  | cons a vs ih =>
      intro v hv hnc
      rcases List.mem_cons.mp hv with rfl | hv2
      · rw [leTransform, if_neg hnc]
        exact ⟨_, rfl⟩
      · by_cases ha : a ∈ classes
        · obtain ⟨e, he⟩ := ih v hv2 hnc
          rw [leTransform, if_pos ha, he]
          exact ⟨e, rfl⟩
        · rw [leTransform, if_neg ha]
          exact ⟨_, rfl⟩

theorem encodeCols_fresh (df : String → List String) :
    ∀ (cols : List String) (encs : List (String × List String)),
      (∀ c ∈ cols, encs.lookup c = none) → cols.Nodup →
      ∃ encs1 out, encodeCols df encs cols = Except.ok (encs1, out) ∧
        (∀ c ∈ cols, encs1.lookup c = some (fitClasses (df c))) ∧
        (∀ (c : String) (cls : List String),
          encs.lookup c = some cls → encs1.lookup c = some cls) := by
  intro cols
  induction cols with
  | nil =>
      intro encs h hd
      exact ⟨encs, [], rfl, by intro c hc; exact absurd hc (List.not_mem_nil c),
        fun c cls hc => hc⟩
  | cons col rest ih =>
      intro encs h hd
      have hcol : encs.lookup col = none := h col (List.mem_cons_self col rest)
      have hnotmem : col ∉ rest := (List.nodup_cons.mp hd).1
      have h2 : ∀ c ∈ rest, ((col, fitClasses (df col)) :: encs).lookup c = none := by
        intro c hc
        have hne : c ≠ col := fun hcc => hnotmem (hcc ▸ hc)
        rw [lookup_cons_ne _ _ _ _ hne]
        exact h c (List.mem_cons_of_mem _ hc)
      obtain ⟨encs1, out, hok, hall, hpres⟩ :=
        ih ((col, fitClasses (df col)) :: encs) h2 (List.nodup_cons.mp hd).2
      refine ⟨encs1,
        (col ++ "_encoded", (df col).map fun v => (fitClasses (df col)).indexOf v) :: out,
        ?_, ?_, ?_⟩
      · rw [encodeCols, hcol]
        dsimp only
        rw [hok]
      · intro c hc
        rcases List.mem_cons.mp hc with rfl | hc2
        · exact hpres c _ (lookup_cons_self c _ encs)
        · exact hall c hc2
      · intro c cls hc
        have hne : c ≠ col := by
          intro hcc
          rw [hcc, hcol] at hc
          cases hc
        exact hpres c cls (by rw [lookup_cons_ne _ _ _ _ hne]; exact hc)

theorem encodeCols_fitted_ok (df : String → List String) :
    ∀ (cols : List String) (encs : List (String × List String)),
      (∀ c ∈ cols, ∃ cls, encs.lookup c = some cls) →
      ∀ (encs1 : List (String × List String)) (out : List (String × List ℕ)),
        encodeCols df encs cols = Except.ok (encs1, out) → encs1 = encs := by
  intro cols
  induction cols with
  | nil =>
      intro encs h encs1 out heq
      rw [encodeCols] at heq
      cases heq
      rfl
  | cons col rest ih =>
      intro encs h encs1 out heq
      obtain ⟨cls, hcls⟩ := h col (List.mem_cons_self col rest)
      rw [encodeCols, hcls] at heq
      dsimp only at heq
      cases hlt : leTransform cls (df col) with
      | error e => rw [hlt] at heq; cases heq
      | ok codes =>
          rw [hlt] at heq
          cases hrec : encodeCols df encs rest with
          | error e => rw [hrec] at heq; cases heq
          | ok pr =>
              obtain ⟨e1, o1⟩ := pr
              rw [hrec] at heq
              cases heq
              exact ih encs (fun c hc => h c (List.mem_cons_of_mem _ hc)) _ _ hrec

theorem encodeCols_fitted_error (df : String → List String) :
    ∀ (cols : List String) (encs : List (String × List String)),
      (∀ c ∈ cols, ∃ cls, encs.lookup c = some cls) →
      ∀ (c : String) (cls : List String) (v : String), c ∈ cols →
        encs.lookup c = some cls → v ∈ df c → v ∉ cls →
        ∃ e, encodeCols df encs cols = Except.error e := by
  intro cols
  induction cols with
  | nil =>
      intro encs h c cls v hc
      exact absurd hc (List.not_mem_nil c)
  | cons col rest ih =>
      intro encs h c cls v hc hlk hvdf hvcls
      rcases List.mem_cons.mp hc with rfl | hc2
      · obtain ⟨e, he⟩ := leTransform_error cls (df c) v hvdf hvcls
        rw [encodeCols, hlk]
        dsimp only
        rw [he]
        exact ⟨e, rfl⟩
      · obtain ⟨cls0, hcls0⟩ := h col (List.mem_cons_self col rest)
        rw [encodeCols, hcls0]
        dsimp only
        cases hlt : leTransform cls0 (df col) with
        | error e => exact ⟨e, rfl⟩
        | ok codes =>
            obtain ⟨e, he⟩ := ih encs (fun c1 hc1 => h c1 (List.mem_cons_of_mem _ hc1))
              c cls v hc2 hlk hvdf hvcls
            rw [he]
            exact ⟨e, rfl⟩

/-- C10: encode_features fits one label encoder per categorical column on a
first call with empty encoder state; any later call whose result is returned
leaves the stored encoders unchanged, and a later call whose data contains a
value outside a column's fitted classes raises an error rather than silently
re-fitting or assigning a new code. -/
theorem c10_encode_features (df1 df2 : String → List String) (col v : String)
    (hcol : col ∈ categorical_cols) (hv : v ∈ df2 col)
    (hunseen : v ∉ fitClasses (df1 col)) :
    ∃ (p1 : DataProcessor) (out1 : List (String × List ℕ)),
      DataProcessor.encode_features ⟨[]⟩ df1 = Except.ok (p1, out1) ∧
      (∀ c ∈ categorical_cols, p1.label_encoders.lookup c = some (fitClasses (df1 c))) ∧
      (∀ (df3 : String → List String) (p3 : DataProcessor) (out3 : List (String × List ℕ)),
        DataProcessor.encode_features p1 df3 = Except.ok (p3, out3) →
        p3.label_encoders = p1.label_encoders) ∧
      ∃ e, DataProcessor.encode_features p1 df2 = Except.error e := by
  obtain ⟨encs1, out, hok, hall, _⟩ := encodeCols_fresh df1 categorical_cols []
    (fun c _ => rfl) (by decide)
  have hfitted : ∀ c ∈ categorical_cols, ∃ cls, encs1.lookup c = some cls :=
    fun c hc => ⟨_, hall c hc⟩
  refine ⟨⟨encs1⟩, out, ?_, hall, ?_, ?_⟩
  · rw [DataProcessor.encode_features, hok]
  · intro df3 p3 out3 h3
    rw [DataProcessor.encode_features] at h3
    cases hc3 : encodeCols df3 encs1 categorical_cols with
    | error e => rw [hc3] at h3; cases h3
    | ok pr =>
        obtain ⟨e1, o1⟩ := pr
        rw [hc3] at h3
        cases h3
        exact encodeCols_fitted_ok df3 categorical_cols encs1 hfitted _ _ hc3
  · obtain ⟨e, he⟩ := encodeCols_fitted_error df2 categorical_cols encs1 hfitted
      col _ v hcol (hall col hcol) hv hunseen
    refine ⟨e, ?_⟩
    rw [DataProcessor.encode_features, he]

/-- C10 witness: concrete one-column data frames where the second call sees a
new category value. -/
theorem c10_witness :
    ("currency" ∈ categorical_cols ∧ ("B" : String) ∈ (fun (_ : String) => ["B"]) "currency" ∧
      ("B" : String) ∉ fitClasses ((fun (_ : String) => ["A"]) "currency")) ∧
      (∃ (p1 : DataProcessor) (out1 : List (String × List ℕ)),
        DataProcessor.encode_features ⟨[]⟩ (fun _ => ["A"]) = Except.ok (p1, out1) ∧
        (∀ c ∈ categorical_cols,
          p1.label_encoders.lookup c = some (fitClasses ((fun (_ : String) => ["A"]) c))) ∧
        (∀ (df3 : String → List String) (p3 : DataProcessor) (out3 : List (String × List ℕ)),
          DataProcessor.encode_features p1 df3 = Except.ok (p3, out3) →
          p3.label_encoders = p1.label_encoders) ∧
        ∃ e, DataProcessor.encode_features p1 (fun _ => ["B"]) = Except.error e) :=
  ⟨⟨by decide, by decide, by decide⟩,
    c10_encode_features (fun _ => ["A"]) (fun _ => ["B"]) "currency" "B"
      (by decide) (by decide) (by decide)⟩
